import Mathlib

/-!
Verification of the calculator engine of this repository (the Calculator
class: handleNumberButton, handleOperatorButton, calculate, addToHistory,
clear, deleteLastCharacter, addDecimal, scientificCalculation, convertBase).

The JavaScript source is embedded shallowly:

* JS numbers are modelled as values of type Option Rat, with none standing
  for NaN; arithmetic is exact rational arithmetic.  IEEE-754 rounding,
  the infinities and exponent-notation rendering of very large or very
  small numbers are outside this abstraction; no property below depends
  on them.
* JS strings are Lean String values; the builtins used by the source
  (parseFloat, parseInt with a radix, Number.prototype.toString with a
  radix, toPrecision, toUpperCase, includes, slice) are modelled below as
  executable functions on String and List Char.
* The transcendental library functions sin, cos, tan, log10 and log that
  the source calls are kept abstract in a MathModel parameter; every
  theorem below holds for every interpretation of those functions.
-/

namespace Jisuanji

/-- JS numbers: none models NaN, some q an exact value. -/
abbrev JSNum := Option ℚ

/-- Addition on JS numbers; NaN propagates. -/
def jsAdd : JSNum → JSNum → JSNum
  | some a, some b => some (a + b)
  | _, _ => none

/-- Subtraction on JS numbers; NaN propagates. -/
def jsSub : JSNum → JSNum → JSNum
  | some a, some b => some (a - b)
  | _, _ => none

/-- Multiplication on JS numbers; NaN propagates. -/
def jsMul : JSNum → JSNum → JSNum
  | some a, some b => some (a * b)
  | _, _ => none

/-- Division on JS numbers; NaN propagates.  Division by zero (which JS
maps to an infinity, not modelled here) is mapped to none; the source
only divides by the literal 100 or behind an explicit zero guard. -/
def jsDiv : JSNum → JSNum → JSNum
  | some a, some b => if b = 0 then none else some (a / b)
  | _, _ => none

/-- Math.pow on JS numbers.  Integer exponents are exact; a fractional
exponent generally yields an irrational value, which the rational
abstraction maps to none.  No claim exercises this operation. -/
def jsPow : JSNum → JSNum → JSNum
  | some a, some b =>
      if b.den = 1 then
        if a = 0 ∧ b.num < 0 then none else some (a ^ b.num)
      else none
  | _, _ => none

/-- Value of a character as a digit, as parseInt sees it: 0-9, then
letters (either case) from 10; 99 marks a non-digit. -/
def jsCharVal (c : Char) : ℕ :=
  if '0' ≤ c ∧ c ≤ '9' then c.toNat - 48
  else if 'a' ≤ c ∧ c ≤ 'z' then c.toNat - 87
  else if 'A' ≤ c ∧ c ≤ 'Z' then c.toNat - 55
  else 99

/-- Digit character produced by Number.prototype.toString: 0-9 then
lowercase letters. -/
def jsDigitChar (d : ℕ) : Char :=
  if d < 10 then Char.ofNat (48 + d) else Char.ofNat (87 + d)

/-- Digits of n in radix r, least significant first, by the division
loop of Number.prototype.toString.  The fuel argument makes the
recursion structural; with fuel greater than n the answer is exact. -/
def natToDigitsRev (r : ℕ) : ℕ → ℕ → List ℕ
  | 0, _ => []
  | fuel + 1, n => if n < r then [n] else n % r :: natToDigitsRev r fuel (n / r)

/-- Rendering of a natural number in radix r, as
Number.prototype.toString(r) renders a non-negative integer. -/
def natToStringRadix (r n : ℕ) : String :=
  String.mk (((natToDigitsRev r (n + 1) n).reverse).map jsDigitChar)

/-- Rendering of an integer in radix r: a minus sign before the digits
of the absolute value, as in JS. -/
def intToStringRadix (r : ℕ) (d : ℤ) : String :=
  if d < 0 then "-" ++ natToStringRadix r d.natAbs else natToStringRadix r d.toNat

/-- String.prototype.toUpperCase, character by character. -/
def jsToUpperCase (s : String) : String :=
  String.mk (s.data.map Char.toUpper)

/-- Floor of a non-negative rational as a natural number. -/
def natFloor (q : ℚ) : ℕ := q.num.toNat / q.den

/-- Decimal digits of the fractional part of q (taken in [0,1)),
produced by repeated multiplication by 10; the fuel bounds the length.
A value whose reduced denominator divides a power of 10 — every value
the engine renders — terminates with its exact expansion. -/
def fracDigits : ℕ → ℚ → List Char
  | 0, _ => []
  | fuel + 1, q =>
      if q = 0 then []
      else
        let q10 := q * 10
        let d := natFloor q10
        jsDigitChar d :: fracDigits fuel (q10 - (d : ℚ))

/-- Decimal rendering of a non-negative rational: integer part, then a
point and the fractional digits when the value is not an integer. -/
def ratToStringNN (q : ℚ) : String :=
  let ip := natFloor q
  let fr := fracDigits 40 (q - (ip : ℚ))
  natToStringRadix 10 ip ++ (if fr = [] then "" else "." ++ String.mk fr)

/-- Decimal rendering of a rational, as Number.prototype.toString
renders the values reached in this development (exponent notation for
magnitudes outside the plain-decimal range is not modelled). -/
def ratToString (q : ℚ) : String :=
  if q < 0 then "-" ++ ratToStringNN (-q) else ratToStringNN q

/-- Rendering of a JS number; NaN prints as its JS name. -/
def jsToString : JSNum → String
  | none => "NaN"
  | some q => ratToString q

/-- Template-literal rendering of the nullable operation field: JS
prints null as the four-letter word null. -/
def jsShowNullable : Option String → String
  | none => "null"
  | some s => s

/-- Truthiness of the nullable operation field: null and the empty
string are falsy. -/
def jsTruthy : Option String → Bool
  | none => false
  | some s => s ≠ ""

/-- parseFloat: optional leading whitespace and sign, then a maximal
run of decimal digits, then an optional point with a maximal run of
fraction digits; NaN when no digit was read.  The exponent suffix of the
full JS grammar is not modelled; no string built by this engine carries
one under the exact-arithmetic abstraction. -/
def jsParseFloat (s : String) : JSNum :=
  let cs := s.data.dropWhile (fun c => c.isWhitespace)
  let neg := cs.head? = some '-'
  let cs := if cs.head? = some '-' ∨ cs.head? = some '+' then cs.tail else cs
  let intPart := cs.takeWhile (fun c => c.isDigit)
  let rest := cs.dropWhile (fun c => c.isDigit)
  let fracPart := if rest.head? = some '.' then rest.tail.takeWhile (fun c => c.isDigit) else []
  if intPart = [] ∧ fracPart = [] then none
  else
    let ip : ℕ := (intPart.map jsCharVal).foldl (fun a d => a * 10 + d) 0
    let fp : ℚ := ((fracPart.map jsCharVal).foldl (fun a d => a * 10 + d) 0 : ℕ) / ((10 : ℚ) ^ fracPart.length)
    let mag : ℚ := (ip : ℚ) + fp
    some (if neg then -mag else mag)

/-- Sign handling of parseInt: a leading minus or plus is consumed and
the sign remembered. -/
def jsSkipSign (cs : List Char) : ℤ × List Char :=
  if cs.head? = some '-' then (-1, cs.tail)
  else if cs.head? = some '+' then (1, cs.tail)
  else (1, cs)

/-- Hex-prefix handling of parseInt: a leading 0x or 0X is consumed
when the radix is 16. -/
def jsStrip0x (radix : ℕ) (cs : List Char) : List Char :=
  if radix = 16 ∧ (cs.take 2 = ['0', 'x'] ∨ cs.take 2 = ['0', 'X']) then cs.drop 2 else cs

/-- Digit phase of parseInt: after sign handling, strip a hex prefix,
read the maximal run of digits of the radix, and combine them; none
(NaN) when no digit was read. -/
def jsParseIntTail (radix : ℕ) (sgn : ℤ) (cs : List Char) : Option ℤ :=
  if (jsStrip0x radix cs).takeWhile (fun c => jsCharVal c < radix) = [] then none
  else some (sgn *
    ((((jsStrip0x radix cs).takeWhile (fun c => jsCharVal c < radix)).map jsCharVal).foldl
      (fun a d => a * radix + d) 0 : ℕ))

/-- parseInt with an explicit radix: optional leading whitespace and
sign, an optional 0x prefix when the radix is 16, then a maximal run of
digits of the radix; none (NaN) when no digit was read.  Values are
exact integers under the abstraction. -/
def jsParseInt (radix : ℕ) (s : String) : Option ℤ :=
  jsParseIntTail radix (jsSkipSign (s.data.dropWhile (fun c => c.isWhitespace))).1
    (jsSkipSign (s.data.dropWhile (fun c => c.isWhitespace))).2

/-- Decimal exponent of a positive rational: the number e with
10 ^ e ≤ q < 10 ^ (e+1), computed without logarithms so that the kernel
can evaluate it. -/
def floorLog10 (q : ℚ) : ℤ :=
  if 1 ≤ q then ((natToDigitsRev 10 (natFloor q + 1) (natFloor q)).length : ℤ) - 1
  else
    match (List.range (q.den + 2)).find? (fun k => 1 ≤ q * 10 ^ k) with
    | some k => -(k : ℤ)
    | none => 0

/-- Composition parseFloat(x.toPrecision(12)) used by calculate():
rounding to 12 significant decimal digits, half away from zero, exact
under the rational abstraction. -/
def jsToPrecision12 : JSNum → JSNum
  | none => none
  | some q =>
      if q = 0 then some 0
      else
        let a := |q|
        let e := floorLog10 a
        let scale : ℚ := if e ≤ 11 then (10 : ℚ) ^ ((11 - e).toNat) else 1 / ((10 : ℚ) ^ ((e - 11).toNat))
        let m : ℕ := natFloor (a * scale + 1 / 2)
        let v : ℚ := (m : ℚ) / scale
        some (if q < 0 then -v else v)

/-- Abstract interpretation of the transcendental Math functions used by
scientificCalculation.  The source composes the degree-to-radian
conversion with the trigonometric call, so the fields take the operand
in degrees.  Every theorem below holds for every interpretation. -/
structure MathModel where
  sinDeg : ℚ → ℚ
  cosDeg : ℚ → ℚ
  tanDeg : ℚ → ℚ
  log10 : ℚ → ℚ
  ln : ℚ → ℚ

/-- A fixed interpretation used for concrete evaluations; no claim
depends on the values of the transcendental branches. -/
def defaultMathModel : MathModel where
  sinDeg := fun _ => 0
  cosDeg := fun _ => 0
  tanDeg := fun _ => 0
  log10 := fun _ => 0
  ln := fun _ => 0

/-- Math.sqrt under the rational abstraction: exact on perfect squares
(IEEE sqrt is correctly rounded, hence also exact there); on other
inputs an integer-sqrt approximation stands in for the irrational float
value, which no claim inspects. -/
def ratSqrt (q : ℚ) : ℚ :=
  (Nat.sqrt q.num.toNat : ℚ) / (Nat.sqrt q.den : ℚ)

/-- The factorial loop of scientificCalculation: result starts at 1 and
is multiplied by every i from 2 to k. -/
def jsFactorialLoop (k : ℕ) : ℕ :=
  (List.range' 2 (k - 1)).foldl (fun a i => a * i) 1

/-- Calculator.scientificCalculation after the parseFloat succeeded:
the switch on the function name. -/
def scientificBranch (M : MathModel) (func : String) (n : ℚ) (value : String) : String :=
  match func with
  | "sin" => ratToString (M.sinDeg n)
  | "cos" => ratToString (M.cosDeg n)
  | "tan" => ratToString (M.tanDeg n)
  | "log" => if 0 < n then ratToString (M.log10 n) else "错误"
  | "ln" => if 0 < n then ratToString (M.ln n) else "错误"
  | "sqrt" => if 0 ≤ n then ratToString (ratSqrt n) else "错误"
  | "square" => ratToString (n * n)
  | "cube" => ratToString (n * n * n)
  | "factorial" =>
      if n < 0 ∨ n.den ≠ 1 then "错误"
      else if 100 < n then "太大"
      else ratToString ((jsFactorialLoop n.num.toNat : ℕ) : ℚ)
  | _ => value

/-- Calculator.scientificCalculation: parse the operand, return the
error sentinel on NaN, otherwise dispatch on the function name (the
default branch returns the operand string unchanged). -/
def scientificCalculation (M : MathModel) (func value : String) : String :=
  match jsParseFloat value with
  | none => "错误"
  | some n => scientificBranch M func n value

/-- Radix of a base name, as the switches of Calculator.convertBase
read it; none hits their default branch. -/
def radixOfBase (base : String) : Option ℕ :=
  if base = "dec" then some 10
  else if base = "bin" then some 2
  else if base = "oct" then some 8
  else if base = "hex" then some 16
  else none

/-- Calculator.convertBase: parse value in fromBase (unknown base names
answer the error sentinel, a failed parse the invalid-input sentinel),
then render the integer in toBase, upper-casing hex output. -/
def convertBase (value fromBase toBase : String) : String :=
  match radixOfBase fromBase with
  | none => "错误"
  | some rf =>
    match jsParseInt rf value with
    | none => "无效输入"
    | some d =>
      match radixOfBase toBase with
      | none => "错误"
      | some rt =>
        let rendered := intToStringRadix rt d
        if toBase = "hex" then jsToUpperCase rendered else rendered

/-- The mutable fields of the Calculator class that the engine
operations read or write (display-only fields are omitted). -/
structure CalcState where
  currentInput : String
  previousInput : String
  operation : Option String
  resetScreen : Bool
  currentBase : String
  history : List String
  deriving Repr, DecidableEq

/-- Constructor defaults of the Calculator class. -/
def initState : CalcState where
  currentInput := "0"
  previousInput := ""
  operation := none
  resetScreen := false
  currentBase := "dec"
  history := []

/-- Test of a whole string against a character class, as the anchored
regular expressions of handleNumberButton do: at least one character and
every character in the class. -/
def reTestAll (p : Char → Bool) (s : String) : Bool :=
  !s.data.isEmpty && s.data.all p

/-- Character class of the binary-input regular expression. -/
def isBinaryDigit (c : Char) : Bool := c = '0' || c = '1'

/-- Character class of the octal-input regular expression. -/
def isOctalDigit (c : Char) : Bool := '0' ≤ c && c ≤ '7'

/-- Calculator.handleNumberButton: reject the pressed value when the
active base is binary or octal and the value fails that base's digit
test (notifying the caller); otherwise replace currentInput when it is
0 or the screen is marked for reset, else append. -/
def handleNumberButton (s : CalcState) (value : String) : CalcState × Option String :=
  if s.currentBase ≠ "dec" ∧ s.currentBase = "bin" ∧ reTestAll isBinaryDigit value = false then
    (s, some "二进制只能输入0和1")
  else if s.currentBase ≠ "dec" ∧ s.currentBase = "oct" ∧ reTestAll isOctalDigit value = false then
    (s, some "八进制只能输入0-7")
  else if s.currentInput = "0" ∨ s.resetScreen = true then
    ({ s with currentInput := value, resetScreen := false }, none)
  else
    ({ s with currentInput := s.currentInput ++ value }, none)

/-- List of history entries after Calculator.addToHistory: newest
first, evicting the oldest beyond the 50-entry cap. -/
def addToHistory (history : List String) (entry : String) : List String :=
  let h := entry :: history
  if 50 < h.length then h.dropLast else h

/-- History line and state update shared by every successful branch of
Calculator.calculate.  The template literal is built after the state
fields were reassigned, so it reads the already-cleared operation
field. -/
def calcFinish (s : CalcState) (prev current result0 : JSNum) : CalcState × Option String :=
  let result := jsToPrecision12 result0
  let s1 : CalcState := { s with currentInput := jsToString result, operation := none, previousInput := "" }
  let entry := jsToString prev ++ " " ++ jsShowNullable s1.operation ++ " " ++ jsToString current ++ " = " ++ jsToString result
  ({ s1 with history := addToHistory s1.history entry }, none)

/-- The switch of Calculator.calculate on the pending operator: the
division branch notifies and returns with the state untouched when the
right operand is exactly 0; unknown operators fall through unchanged. -/
def calcSwitch (s : CalcState) (prev current : JSNum) (op : String) : CalcState × Option String :=
  if op = "+" then calcFinish s prev current (jsAdd prev current)
  else if op = "-" then calcFinish s prev current (jsSub prev current)
  else if op = "×" then calcFinish s prev current (jsMul prev current)
  else if op = "÷" then
    if current = some 0 then (s, some "不能除以零")
    else calcFinish s prev current (jsDiv prev current)
  else if op = "^" then calcFinish s prev current (jsPow prev current)
  else (s, none)

/-- Calculator.calculate: no-op unless an operation is pending with a
captured left operand; otherwise parse the two operands and run the
operator switch. -/
def calculate (s : CalcState) : CalcState × Option String :=
  if ¬ jsTruthy s.operation ∨ s.previousInput = "" then (s, none)
  else calcSwitch s (jsParseFloat s.previousInput) (jsParseFloat s.currentInput) (s.operation.getD "")

/-- Calculator.handleOperatorButton: the percent key divides the
display by 100 in place; any other key first runs the pending
calculation when an operand was typed after the previous operator, then
captures the display and the new operator and marks the screen for
reset. -/
def handleOperatorButton (s : CalcState) (value : String) : CalcState × Option String :=
  if value = "%" then
    ({ s with currentInput := jsToString (jsDiv (jsParseFloat s.currentInput) (some 100)) }, none)
  else
    let s1 := if jsTruthy s.operation ∧ s.previousInput ≠ "" ∧ s.resetScreen = false then (calculate s).1 else s
    ({ s1 with previousInput := s1.currentInput, operation := some value, resetScreen := true }, none)

/-- Calculator.handleScientificButton: the display is replaced by the
result of the scientific function applied to it. -/
def handleScientificButton (M : MathModel) (s : CalcState) (func : String) : CalcState :=
  { s with currentInput := scientificCalculation M func s.currentInput }

/-- Calculator.clear: reset the three calculation fields and notify. -/
def clear (s : CalcState) : CalcState × Option String :=
  ({ s with currentInput := "0", previousInput := "", operation := none }, some "已清除")

/-- Calculator.deleteLastCharacter: drop the last character, resetting
to 0 when at most one character is left. -/
def deleteLastCharacter (s : CalcState) : CalcState :=
  if 1 < s.currentInput.length then
    { s with currentInput := String.mk s.currentInput.data.dropLast }
  else
    { s with currentInput := "0" }

/-- Calculator.addDecimal: append a point unless one is present. -/
def addDecimal (s : CalcState) : CalcState :=
  if '.' ∈ s.currentInput.data then s
  else { s with currentInput := s.currentInput ++ "." }

/-- Engine operations reachable from the shell: digit press, operator
press, equals, clear, backspace, decimal point, scientific function,
and base conversion applied to the display (the conversion panel and
the BIN/OCT/HEX keys route convertBase output to a display slot). -/
inductive CalcOp where
  | digit (c : Char)
  | operator (v : String)
  | evaluate
  | clearAll
  | deleteChar
  | decimal
  | scientific (func : String)
  | convertDisplay (fromBase toBase : String)
  deriving Repr, DecidableEq

/-- One engine operation applied to a state (notifications dropped). -/
def step (M : MathModel) (s : CalcState) : CalcOp → CalcState
  | CalcOp.digit c => (handleNumberButton s (String.mk [c])).1
  | CalcOp.operator v => (handleOperatorButton s v).1
  | CalcOp.evaluate => (calculate s).1
  | CalcOp.clearAll => (clear s).1
  | CalcOp.deleteChar => deleteLastCharacter s
  | CalcOp.decimal => addDecimal s
  | CalcOp.scientific f => handleScientificButton M s f
  | CalcOp.convertDisplay a b => { s with currentInput := convertBase s.currentInput a b }

/-- A run of the engine from the startup state. -/
def runOps (M : MathModel) (ops : List CalcOp) : CalcState :=
  ops.foldl (step M) initState

/-- Reading of the spec's description of setOperator: chain-evaluate
exactly when an operator is pending (non-null), a left operand was
captured and the screen is not marked for reset; then capture the
display and the new operator. -/
def setOperatorSpec (s : CalcState) (op : String) : CalcState :=
  let s1 := if s.operation.isSome ∧ s.previousInput ≠ "" ∧ s.resetScreen = false then (calculate s).1 else s
  { s1 with previousInput := s1.currentInput, operation := some op, resetScreen := true }

/-- Digit presses the source rejects: a binary-base press outside 0 and
1 or an octal-base press outside 0-7. -/
def rejectsDigit (base : String) (c : Char) : Bool :=
  (base == "bin" && !(isBinaryDigit c)) || (base == "oct" && !(isOctalDigit c))

/-- Digit presses the source accepts. -/
def acceptsDigit (base : String) (c : Char) : Bool := !(rejectsDigit base c)

/-- Display text produced by a run of accepted digit presses: their
concatenation with redundant leading zeros collapsed, 0 by default. -/
def canonDigits (l : List Char) : String :=
  match l.dropWhile (fun c => c = '0') with
  | [] => "0"
  | l1 => String.mk l1

/-- A fresh engine in the given base. -/
def baseInit (base : String) : CalcState :=
  { initState with currentBase := base }

/-- A run of digit presses from a fresh engine in the given base. -/
def applyDigits (base : String) (ds : List Char) : CalcState :=
  ds.foldl (fun s c => (handleNumberButton s (String.mk [c])).1) (baseInit base)

/-- Syntactically valid (possibly partial) numeral in the active base,
read generously from the spec's words: non-empty and made only of
digits of the base, a decimal point, or a minus sign. -/
def validNumeralChars (base s : String) : Bool :=
  !s.data.isEmpty && s.data.all (fun c =>
    (match radixOfBase base with
     | some r => decide (jsCharVal c < r)
     | none => false) || c = '.' || c = '-')

/-- State of a fresh engine in the given base whose display holds the
canonical text of an accepted-digit run. -/
def digitRunState (base : String) (l : List Char) : CalcState :=
  { initState with currentBase := base, currentInput := canonDigits l }

/-! ## Helper lemmas about the calculate pipeline -/

theorem calculate_noop (s : CalcState) (h : ¬ jsTruthy s.operation ∨ s.previousInput = "") :
    calculate s = (s, none) := by
  unfold calculate
  rw [if_pos h]

theorem calcSwitch_cases (s : CalcState) (p c : JSNum) (op : String) :
    (calcSwitch s p c op).1 = s ∨ (calcSwitch s p c op).1.operation = none := by
  unfold calcSwitch
  split
  · exact Or.inr rfl
  · split
    · exact Or.inr rfl
    · split
      · exact Or.inr rfl
      · split
        · split
          · exact Or.inl rfl
          · exact Or.inr rfl
        · split
          · exact Or.inr rfl
          · exact Or.inl rfl

theorem calculate_fst_cases (s : CalcState) :
    (calculate s).1 = s ∨ (calculate s).1.operation = none := by
  by_cases hg : ¬ jsTruthy s.operation ∨ s.previousInput = ""
  · rw [calculate_noop s hg]
    exact Or.inl rfl
  · unfold calculate
    rw [if_neg hg]
    exact calcSwitch_cases s _ _ _

theorem calculate_idem (s : CalcState) :
    (calculate (calculate s).1).1 = (calculate s).1 := by
  rcases calculate_fst_cases s with h | h
  · rw [h]; exact h
  · rw [calculate_noop ((calculate s).1) (Or.inl (by simp [h, jsTruthy]))]

theorem jsTruthy_isSome {o : Option String} (h : jsTruthy o = true) : o.isSome = true := by
  cases o with
  | none => simp [jsTruthy] at h
  | some a => rfl

/-! ## Helper lemmas about string rendering -/

theorem string_append_empty (s : String) : s ++ "" = s := by
  cases s with
  | mk l => show String.mk (l ++ []) = String.mk l
            rw [List.append_nil]

theorem string_ne_empty_of_data {s : String} (h : s.data ≠ []) : s ≠ "" := by
  intro he
  rw [he] at h
  exact h rfl

theorem append_ne_empty_left {a : String} (b : String) (ha : a ≠ "") : a ++ b ≠ "" := by
  apply string_ne_empty_of_data
  rw [String.data_append]
  intro h
  rcases List.append_eq_nil.1 h with ⟨h1, -⟩
  exact ha (by cases a with | mk l => cases h1; rfl)

theorem jsFactorialLoop_eq (k : ℕ) : jsFactorialLoop k = Nat.factorial k := by
  induction k with
  | zero => rfl
  | succ n ih =>
    cases n with
    | zero => rfl
    | succ m =>
      have h1 : jsFactorialLoop (m + 1) = Nat.factorial (m + 1) := ih
      unfold jsFactorialLoop at h1 ⊢
      rw [Nat.add_sub_cancel] at h1 ⊢
      rw [List.range'_concat, List.foldl_concat, h1, Nat.factorial_succ, Nat.mul_comm]
      congr 1
      omega

theorem natFloor_natCast (m : ℕ) : natFloor ((m : ℕ) : ℚ) = m := by
  simp [natFloor]

theorem fracDigits_zero : fracDigits 40 0 = [] := rfl

theorem ratToString_natCast (m : ℕ) : ratToString ((m : ℕ) : ℚ) = natToStringRadix 10 m := by
  unfold ratToString ratToStringNN
  rw [if_neg (not_lt.2 (by exact_mod_cast Nat.zero_le m))]
  simp only [natFloor_natCast, sub_self, fracDigits_zero, if_pos rfl]
  exact string_append_empty _

theorem scientificCalculation_branch (M : MathModel) (func s : String) (v : ℚ)
    (hv : jsParseFloat s = some v) :
    scientificCalculation M func s = scientificBranch M func v s := by
  unfold scientificCalculation
  rw [hv]

/-! ## Helper lemmas about digit entry -/

theorem reTestAll_singleton (p : Char → Bool) (c : Char) :
    reTestAll p (String.mk [c]) = p c := by
  simp [reTestAll]

theorem dropWhile_cons_head {p : Char → Bool} {l t : List Char} {h : Char}
    (hd : l.dropWhile p = h :: t) : p h = false := by
  induction l with
  | nil => simp [List.dropWhile] at hd
  | cons a l ih =>
    rw [List.dropWhile_cons] at hd
    by_cases hp : p a = true
    · rw [if_pos hp] at hd
      exact ih hd
    · rw [if_neg hp] at hd
      cases hd
      exact Bool.not_eq_true _ ▸ (by simpa using hp)

theorem canonDigits_eq_zero_iff (l : List Char) :
    canonDigits l = "0" ↔ l.dropWhile (fun c => c = '0') = [] := by
  unfold canonDigits
  cases hd : l.dropWhile (fun c => c = '0') with
  | nil => simp
  | cons h t =>
    simp only
    constructor
    · intro he
      have hlist : h :: t = ['0'] := by
        have := congrArg String.data he
        simpa using this
      have hh : h = '0' := by injection hlist
      have := dropWhile_cons_head hd
      rw [hh] at this
      simp at this
    · intro he
      exact absurd he (by simp)

theorem canonDigits_append_of_zero {l : List Char} (c : Char)
    (h : l.dropWhile (fun c => c = '0') = []) :
    canonDigits (l ++ [c]) = String.mk [c] := by
  unfold canonDigits
  rw [List.dropWhile_append, h]
  simp only [List.isEmpty_nil, if_pos rfl]
  by_cases hc : c = '0'
  · subst hc
    simp [List.dropWhile]
  · simp [List.dropWhile, hc]

theorem canonDigits_append_of_ne {l : List Char} (c : Char)
    (h : l.dropWhile (fun c => c = '0') ≠ []) :
    canonDigits (l ++ [c]) = canonDigits l ++ String.mk [c] := by
  unfold canonDigits
  rw [List.dropWhile_append]
  cases hd : l.dropWhile (fun c => c = '0') with
  | nil => exact absurd hd h
  | cons a t =>
    simp only [List.isEmpty_cons, if_neg Bool.false_ne_true]
    rfl

theorem handleNumberButton_reject (s : CalcState) (c : Char)
    (h : rejectsDigit s.currentBase c = true) :
    (handleNumberButton s (String.mk [c])).1 = s := by
  simp only [rejectsDigit, Bool.or_eq_true, Bool.and_eq_true, beq_iff_eq,
    Bool.not_eq_true'] at h
  unfold handleNumberButton
  rcases h with ⟨hb, hn⟩ | ⟨hb, hn⟩
  · rw [if_pos ⟨by rw [hb]; decide, hb, by rw [reTestAll_singleton]; exact hn⟩]
  · rw [if_neg (fun hx => by rw [hb] at hx; exact absurd hx.2.1 (by decide)),
      if_pos ⟨by rw [hb]; decide, hb, by rw [reTestAll_singleton]; exact hn⟩]

theorem handleNumberButton_accept (s : CalcState) (c : Char)
    (h : rejectsDigit s.currentBase c = false) :
    (handleNumberButton s (String.mk [c])).1 =
      if s.currentInput = "0" ∨ s.resetScreen = true then
        { s with currentInput := String.mk [c], resetScreen := false }
      else { s with currentInput := s.currentInput ++ String.mk [c] } := by
  simp only [rejectsDigit, Bool.or_eq_false_iff, Bool.and_eq_false_iff,
    beq_eq_false_iff_ne, ne_eq, Bool.not_eq_false'] at h
  unfold handleNumberButton
  have h1 : ¬(s.currentBase ≠ "dec" ∧ s.currentBase = "bin" ∧ reTestAll isBinaryDigit (String.mk [c]) = false) := by
    rintro ⟨-, hb, hr⟩
    rw [reTestAll_singleton] at hr
    rcases h.1 with h2 | h2
    · exact h2 hb
    · rw [h2] at hr; cases hr
  have h2 : ¬(s.currentBase ≠ "dec" ∧ s.currentBase = "oct" ∧ reTestAll isOctalDigit (String.mk [c]) = false) := by
    rintro ⟨-, hb, hr⟩
    rw [reTestAll_singleton] at hr
    rcases h.2 with h3 | h3
    · exact h3 hb
    · rw [h3] at hr; cases hr
  rw [if_neg h1, if_neg h2]
  by_cases hz : s.currentInput = "0" ∨ s.resetScreen = true
  · rw [if_pos hz, if_pos hz]
  · rw [if_neg hz, if_neg hz]

theorem digitRunState_base (base : String) (l : List Char) :
    (digitRunState base l).currentBase = base := rfl

theorem foldl_digits (base : String) (ds : List Char) :
    ∀ acc : List Char,
      ds.foldl (fun s c => (handleNumberButton s (String.mk [c])).1) (digitRunState base acc) =
      digitRunState base (acc ++ ds.filter (fun c => acceptsDigit base c)) := by
  induction ds with
  | nil => intro acc; simp
  | cons c ds ih =>
    intro acc
    rw [List.foldl_cons]
    by_cases hc : acceptsDigit base c = true
    · have hr : rejectsDigit (digitRunState base acc).currentBase c = false := by
        rw [digitRunState_base]
        simpa [acceptsDigit] using hc
      rw [handleNumberButton_accept _ _ hr]
      by_cases hz : canonDigits acc = "0"
      · have hcond : (digitRunState base acc).currentInput = "0" ∨ (digitRunState base acc).resetScreen = true :=
          Or.inl hz
        rw [if_pos hcond]
        have hrec : ({ digitRunState base acc with currentInput := String.mk [c], resetScreen := false } : CalcState) =
            digitRunState base (acc ++ [c]) := by
          unfold digitRunState
          rw [canonDigits_append_of_zero c ((canonDigits_eq_zero_iff acc).1 hz)]
          rfl
        rw [hrec, ih (acc ++ [c])]
        simp [List.filter_cons, hc, List.append_assoc]
      · have hcond : ¬((digitRunState base acc).currentInput = "0" ∨ (digitRunState base acc).resetScreen = true) := by
          rintro (h | h)
          · exact hz h
          · exact absurd h (by rw [show (digitRunState base acc).resetScreen = false from rfl]; decide)
        rw [if_neg hcond]
        have hrec : ({ digitRunState base acc with currentInput := (digitRunState base acc).currentInput ++ String.mk [c] } : CalcState) =
            digitRunState base (acc ++ [c]) := by
          unfold digitRunState
          rw [show ({ initState with currentBase := base, currentInput := canonDigits acc } : CalcState).currentInput = canonDigits acc from rfl,
            canonDigits_append_of_ne c (fun he => hz ((canonDigits_eq_zero_iff acc).2 he))]
        rw [hrec, ih (acc ++ [c])]
        simp [List.filter_cons, hc, List.append_assoc]
    · have hr : rejectsDigit (digitRunState base acc).currentBase c = true := by
        rw [digitRunState_base]
        simpa [acceptsDigit] using hc
      rw [handleNumberButton_reject _ _ hr, ih acc]
      simp [List.filter_cons, hc]

/-! ## Helper lemmas: every operation keeps the display non-empty -/

theorem natToDigitsRev_ne_nil (r : ℕ) (f n : ℕ) (hf : f ≠ 0) :
    natToDigitsRev r f n ≠ [] := by
  cases f with
  | zero => exact absurd rfl hf
  | succ k =>
    unfold natToDigitsRev
    split <;> simp

theorem natToStringRadix_ne_empty (r n : ℕ) : natToStringRadix r n ≠ "" := by
  apply string_ne_empty_of_data
  unfold natToStringRadix
  simp only [String.data]
  intro h
  rw [List.map_eq_nil_iff, List.reverse_eq_nil_iff] at h
  exact natToDigitsRev_ne_nil r (n + 1) n (Nat.succ_ne_zero n) h

theorem ratToStringNN_ne_empty (q : ℚ) : ratToStringNN q ≠ "" := by
  unfold ratToStringNN
  exact append_ne_empty_left _ (natToStringRadix_ne_empty 10 _)

theorem ratToString_ne_empty (q : ℚ) : ratToString q ≠ "" := by
  unfold ratToString
  split
  · exact append_ne_empty_left _ (by decide)
  · exact ratToStringNN_ne_empty q

theorem jsToString_ne_empty (n : JSNum) : jsToString n ≠ "" := by
  cases n with
  | none => decide
  | some q => exact ratToString_ne_empty q

theorem scientificCalculation_ne_empty (M : MathModel) (func value : String)
    (h : value ≠ "") : scientificCalculation M func value ≠ "" := by
  unfold scientificCalculation
  split
  · decide
  · unfold scientificBranch
    split
    all_goals try exact ratToString_ne_empty _
    all_goals try exact h
    all_goals split
    all_goals try exact ratToString_ne_empty _
    all_goals try decide
    all_goals split
    all_goals first | decide | exact ratToString_ne_empty _

theorem jsToUpperCase_ne_empty {s : String} (h : s ≠ "") : jsToUpperCase s ≠ "" := by
  apply string_ne_empty_of_data
  unfold jsToUpperCase
  simp only [String.data]
  intro hd
  rw [List.map_eq_nil_iff] at hd
  exact h (by cases s with | mk l => cases hd; rfl)

theorem intToStringRadix_ne_empty (r : ℕ) (d : ℤ) : intToStringRadix r d ≠ "" := by
  unfold intToStringRadix
  split
  · exact append_ne_empty_left _ (by decide)
  · exact natToStringRadix_ne_empty r _

theorem convertBase_ne_empty (value fromBase toBase : String) :
    convertBase value fromBase toBase ≠ "" := by
  unfold convertBase
  split
  · decide
  · split
    · decide
    · split
      · decide
      · split
        · exact jsToUpperCase_ne_empty (intToStringRadix_ne_empty _ _)
        · exact intToStringRadix_ne_empty _ _

theorem handleNumberButton_preserves (s : CalcState) (v : String)
    (hs : s.currentInput ≠ "") (hv : v ≠ "") :
    (handleNumberButton s v).1.currentInput ≠ "" := by
  unfold handleNumberButton
  split
  · exact hs
  · split
    · exact hs
    · split
      · exact hv
      · exact append_ne_empty_left _ hs

theorem calcSwitch_preserves (s : CalcState) (p c : JSNum) (op : String)
    (hs : s.currentInput ≠ "") :
    (calcSwitch s p c op).1.currentInput ≠ "" := by
  unfold calcSwitch calcFinish
  split
  · exact jsToString_ne_empty _
  · split
    · exact jsToString_ne_empty _
    · split
      · exact jsToString_ne_empty _
      · split
        · split
          · exact hs
          · exact jsToString_ne_empty _
        · split
          · exact jsToString_ne_empty _
          · exact hs

theorem calculate_preserves (s : CalcState) (hs : s.currentInput ≠ "") :
    (calculate s).1.currentInput ≠ "" := by
  unfold calculate
  split
  · exact hs
  · exact calcSwitch_preserves _ _ _ _ hs

theorem handleOperatorButton_preserves (s : CalcState) (v : String)
    (hs : s.currentInput ≠ "") :
    (handleOperatorButton s v).1.currentInput ≠ "" := by
  unfold handleOperatorButton
  split
  · exact jsToString_ne_empty _
  · show (if jsTruthy s.operation = true ∧ s.previousInput ≠ "" ∧ s.resetScreen = false then (calculate s).1 else s).currentInput ≠ ""
    split
    · exact calculate_preserves s hs
    · exact hs

theorem deleteLastCharacter_preserves (s : CalcState) :
    (deleteLastCharacter s).currentInput ≠ "" := by
  unfold deleteLastCharacter
  split
  · next hlen =>
      apply string_ne_empty_of_data
      simp only [String.data]
      intro hnil
      have h2 := congrArg List.length hnil
      rw [List.length_dropLast] at h2
      simp only [List.length_nil] at h2
      have h3 : s.currentInput.data.length = s.currentInput.length := rfl
      omega
  · show ("0" : String) ≠ ""
    decide

theorem addDecimal_preserves (s : CalcState) (hs : s.currentInput ≠ "") :
    (addDecimal s).currentInput ≠ "" := by
  unfold addDecimal
  split
  · exact hs
  · exact append_ne_empty_left _ hs

theorem step_preserves (M : MathModel) (s : CalcState) (op : CalcOp)
    (hs : s.currentInput ≠ "") : (step M s op).currentInput ≠ "" := by
  cases op with
  | digit c =>
      exact handleNumberButton_preserves s _ hs (string_ne_empty_of_data (by simp))
  | operator v => exact handleOperatorButton_preserves s v hs
  | evaluate => exact calculate_preserves s hs
  | clearAll =>
      show ("0" : String) ≠ ""
      decide
  | deleteChar => exact deleteLastCharacter_preserves s
  | decimal => exact addDecimal_preserves s hs
  | scientific f => exact scientificCalculation_ne_empty M f _ hs
  | convertDisplay a b => exact convertBase_ne_empty _ a b

/-! ## Helper lemmas: base conversion round trip -/

theorem natToDigitsRev_lt (r : ℕ) (hr : 2 ≤ r) :
    ∀ (f n : ℕ), n < f → ∀ d ∈ natToDigitsRev r f n, d < r := by
  intro f
  induction f with
  | zero => intro n hn; omega
  | succ k ih =>
    intro n hn d hd
    unfold natToDigitsRev at hd
    by_cases hnr : n < r
    · rw [if_pos hnr] at hd
      simp at hd
      omega
    · rw [if_neg hnr] at hd
      rcases List.mem_cons.1 hd with h | h
      · subst h
        exact Nat.mod_lt n (by omega)
      · have hdiv : n / r < k := by
          have h1 : n / r < n := Nat.div_lt_self (by omega) (by omega)
          omega
        exact ih (n / r) hdiv d h

theorem natToDigitsRev_val (r : ℕ) (hr : 2 ≤ r) :
    ∀ (f n : ℕ), n < f →
      ((natToDigitsRev r f n).reverse).foldl (fun a d => a * r + d) 0 = n := by
  intro f
  induction f with
  | zero => intro n hn; omega
  | succ k ih =>
    intro n hn
    unfold natToDigitsRev
    by_cases hnr : n < r
    · rw [if_pos hnr]
      simp
    · rw [if_neg hnr]
      rw [List.reverse_cons, List.foldl_concat]
      have hdiv : n / r < k := by
        have h1 : n / r < n := Nat.div_lt_self (by omega) (by omega)
        omega
      rw [ih (n / r) hdiv]
      exact Nat.div_add_mod' n r

theorem dropWhile_eq_self_of_all {p : Char → Bool} :
    ∀ {l : List Char}, (∀ c ∈ l, p c = false) → l.dropWhile p = l := by
  intro l h
  cases l with
  | nil => rfl
  | cons a t =>
    rw [List.dropWhile_cons, if_neg (by rw [h a (List.mem_cons_self _ _)]; simp)]

theorem jsParseInt_mapped (r : ℕ) (hr16 : r ≤ 16) (g : ℕ → Char)
    (hg : ∀ d, d < 16 → jsCharVal (g d) = d ∧ (g d).isWhitespace = false ∧
      g d ≠ '-' ∧ g d ≠ '+' ∧ g d ≠ 'x' ∧ g d ≠ 'X')
    (l : List ℕ) (hl : l ≠ []) (hb : ∀ d ∈ l, d < r) :
    jsParseInt r (String.mk (l.map g)) = some ((l.foldl (fun a d => a * r + d) 0 : ℕ) : ℤ) := by
  have hlt16 : ∀ d ∈ l, d < 16 := fun d hd => lt_of_lt_of_le (hb d hd) hr16
  obtain ⟨d0, t, rfl⟩ : ∃ d0 t, l = d0 :: t := by
    cases l with
    | nil => exact absurd rfl hl
    | cons a t => exact ⟨a, t, rfl⟩
  have hd0 := hg d0 (hlt16 d0 (List.mem_cons_self _ _))
  have hdw : ((d0 :: t).map g).dropWhile (fun c => c.isWhitespace) = (d0 :: t).map g := by
    apply dropWhile_eq_self_of_all
    intro c hc
    rcases List.mem_map.1 hc with ⟨d, hd, rfl⟩
    exact (hg d (hlt16 d hd)).2.1
  have hhead : ((d0 :: t).map g).head? = some (g d0) := rfl
  have hsign : jsSkipSign ((d0 :: t).map g) = (1, (d0 :: t).map g) := by
    unfold jsSkipSign
    rw [hhead,
      if_neg (fun hx => hd0.2.2.1 (Option.some.inj hx)),
      if_neg (fun hx => hd0.2.2.2.1 (Option.some.inj hx))]
  have hstrip : jsStrip0x r ((d0 :: t).map g) = (d0 :: t).map g := by
    unfold jsStrip0x
    refine if_neg ?_
    rintro ⟨-, hor⟩
    cases t with
    | nil => rcases hor with h | h <;> simp at h
    | cons d1 t2 =>
      have hd1 := hg d1 (hlt16 d1 (List.mem_cons_of_mem _ (List.mem_cons_self _ _)))
      rcases hor with h | h
      · refine hd1.2.2.2.2.1 ?_
        have := congrArg (fun z => z.get? 1) h
        simpa using this
      · refine hd1.2.2.2.2.2 ?_
        have := congrArg (fun z => z.get? 1) h
        simpa using this
  have htw : ((d0 :: t).map g).takeWhile (fun c => decide (jsCharVal c < r)) = (d0 :: t).map g := by
    rw [List.takeWhile_eq_self_iff]
    intro c hc
    rcases List.mem_map.1 hc with ⟨d, hd, rfl⟩
    rw [(hg d (hlt16 d hd)).1]
    exact decide_eq_true (hb d hd)
  have hmap : ((d0 :: t).map g).map jsCharVal = d0 :: t := by
    rw [List.map_map]
    have he : ∀ d ∈ d0 :: t, (jsCharVal ∘ g) d = id d := by
      intro d hd
      simp only [Function.comp_apply, id_eq]
      exact (hg d (hlt16 d hd)).1
    rw [List.map_congr_left he, List.map_id]
  unfold jsParseInt
  rw [show (String.mk ((d0 :: t).map g)).data = (d0 :: t).map g from rfl, hdw]
  simp only [hsign]
  unfold jsParseIntTail
  rw [hstrip, htw]
  rw [if_neg (by simp), hmap, one_mul]

theorem natToStringRadix_parse (r n : ℕ) (hr2 : 2 ≤ r) (hr16 : r ≤ 16) :
    jsParseInt r (natToStringRadix r n) = some (n : ℤ) := by
  have hgd : ∀ d : ℕ, d < 16 → jsCharVal (jsDigitChar d) = d ∧
      (jsDigitChar d).isWhitespace = false ∧ jsDigitChar d ≠ '-' ∧ jsDigitChar d ≠ '+' ∧
      jsDigitChar d ≠ 'x' ∧ jsDigitChar d ≠ 'X' := by decide
  have hne : (natToDigitsRev r (n + 1) n).reverse ≠ [] := by
    intro h
    rw [List.reverse_eq_nil_iff] at h
    exact natToDigitsRev_ne_nil r (n + 1) n (Nat.succ_ne_zero n) h
  have hlt : ∀ d ∈ (natToDigitsRev r (n + 1) n).reverse, d < r := by
    intro d hd
    exact natToDigitsRev_lt r hr2 (n + 1) n (Nat.lt_succ_self n) d (List.mem_reverse.1 hd)
  unfold natToStringRadix
  rw [jsParseInt_mapped r hr16 jsDigitChar hgd _ hne hlt]
  rw [natToDigitsRev_val r hr2 (n + 1) n (Nat.lt_succ_self n)]

theorem natToStringRadix_parse_upper (r n : ℕ) (hr2 : 2 ≤ r) (hr16 : r ≤ 16) :
    jsParseInt r (jsToUpperCase (natToStringRadix r n)) = some (n : ℤ) := by
  have hgu : ∀ d : ℕ, d < 16 → jsCharVal (Char.toUpper (jsDigitChar d)) = d ∧
      (Char.toUpper (jsDigitChar d)).isWhitespace = false ∧
      Char.toUpper (jsDigitChar d) ≠ '-' ∧ Char.toUpper (jsDigitChar d) ≠ '+' ∧
      Char.toUpper (jsDigitChar d) ≠ 'x' ∧ Char.toUpper (jsDigitChar d) ≠ 'X' := by decide
  have hne : (natToDigitsRev r (n + 1) n).reverse ≠ [] := by
    intro h
    rw [List.reverse_eq_nil_iff] at h
    exact natToDigitsRev_ne_nil r (n + 1) n (Nat.succ_ne_zero n) h
  have hlt : ∀ d ∈ (natToDigitsRev r (n + 1) n).reverse, d < r := by
    intro d hd
    exact natToDigitsRev_lt r hr2 (n + 1) n (Nat.lt_succ_self n) d (List.mem_reverse.1 hd)
  have hre : jsToUpperCase (natToStringRadix r n) =
      String.mk (((natToDigitsRev r (n + 1) n).reverse).map (fun d => Char.toUpper (jsDigitChar d))) := by
    unfold natToStringRadix jsToUpperCase
    rw [show (String.mk (((natToDigitsRev r (n + 1) n).reverse).map jsDigitChar)).data =
      ((natToDigitsRev r (n + 1) n).reverse).map jsDigitChar from rfl]
    rw [List.map_map]
    rfl
  rw [hre]
  rw [jsParseInt_mapped r hr16 (fun d => Char.toUpper (jsDigitChar d)) hgu _ hne hlt]
  rw [natToDigitsRev_val r hr2 (n + 1) n (Nat.lt_succ_self n)]

theorem convertBase_eval (value fromB toB : String) (rf rt : ℕ) (d : ℤ)
    (hf : radixOfBase fromB = some rf) (hp : jsParseInt rf value = some d)
    (ht : radixOfBase toB = some rt) :
    convertBase value fromB toB =
      (if toB = "hex" then jsToUpperCase (intToStringRadix rt d) else intToStringRadix rt d) := by
  simp only [convertBase, hf, hp, ht]

theorem intToStringRadix_natCast (rt n : ℕ) :
    intToStringRadix rt (n : ℤ) = natToStringRadix rt n := by
  unfold intToStringRadix
  rw [if_neg (by omega), Int.toNat_natCast]

/-! ## Claim theorems -/

/-- C1: evaluating the sequence 7, +, 3, = yields the display 10, but
the appended history entry is the string 7 null 3 = 10 rather than the
specified 7 + 3 = 10, because calculate() clears the operation field to
null before the template literal for the history entry is built.  This
theorem evaluates the embedded code at the failing input. -/
theorem c1_history_entry_eval :
    (runOps defaultMathModel [CalcOp.digit '7', CalcOp.operator ("+"), CalcOp.digit '3', CalcOp.evaluate]).currentInput = "10" ∧
    (runOps defaultMathModel [CalcOp.digit '7', CalcOp.operator ("+"), CalcOp.digit '3', CalcOp.evaluate]).history = ["7 null 3 = 10"] ∧
    "7 + 3 = 10" ∉ (runOps defaultMathModel [CalcOp.digit '7', CalcOp.operator ("+"), CalcOp.digit '3', CalcOp.evaluate]).history := by
  refine ⟨by with_unfolding_all rfl, by with_unfolding_all rfl, by with_unfolding_all decide⟩

/-- C2 counterexample: one reachable step breaks the claimed numeral
invariant: applying the scientific function ln to the startup state
(display 0) stores the error sentinel 错误 in currentInput, which is
not a syntactically valid numeral of the active decimal base. -/
theorem c2_counterexample :
    (step defaultMathModel initState (CalcOp.scientific ("ln"))).currentInput = "错误" ∧
    validNumeralChars ("dec") (step defaultMathModel initState (CalcOp.scientific ("ln"))).currentInput = false := by
  refine ⟨by with_unfolding_all rfl, by with_unfolding_all rfl⟩

/-- C2 amended: after any sequence of engine operations, under any
interpretation of the transcendental functions, currentInput is a
non-empty string (it starts as 0 and no operation empties it); it need
not remain a valid numeral, because scientific functions and base
conversion can store error sentinels in it. -/
theorem c2_currentInput_never_empty (M : MathModel) (ops : List CalcOp) :
    (runOps M ops).currentInput ≠ "" := by
  have main : ∀ (l : List CalcOp) (s : CalcState), s.currentInput ≠ "" →
      (l.foldl (step M) s).currentInput ≠ "" := by
    intro l
    induction l with
    | nil => intro s hs; exact hs
    | cons op l ih =>
      intro s hs
      rw [List.foldl_cons]
      exact ih _ (step_preserves M s op hs)
  exact main ops initState (by decide)

/-- C3: on every state with a pending division whose right operand
parses to exactly 0, calculate() reports the division-by-zero
notification and returns the state completely unchanged. -/
theorem c3_division_by_zero (s : CalcState) (h1 : s.operation = some ("÷"))
    (h2 : s.previousInput ≠ "") (h3 : jsParseFloat s.currentInput = some 0) :
    calculate s = (s, some ("不能除以零")) := by
  have hguard : ¬(¬ jsTruthy s.operation ∨ s.previousInput = "") := by
    push_neg
    exact ⟨by rw [h1]; decide, h2⟩
  unfold calculate
  rw [if_neg hguard, h1, h3]
  unfold calcSwitch
  rw [if_neg (by decide), if_neg (by decide), if_neg (by decide), if_pos (by decide), if_pos rfl]

/-- C3 witness: dividing 5 by a display of 0 triggers the guard. -/
theorem c3_division_by_zero_witness :
    calculate { initState with previousInput := "5", operation := some ("÷") } =
      ({ initState with previousInput := "5", operation := some ("÷") }, some ("不能除以零")) :=
  c3_division_by_zero _ rfl (by decide) (by with_unfolding_all rfl)

/-- C4 counterexample: the round trip is not the identity on every
non-negative integer string: 007 parses to 7, is rendered in binary as
111, and converting back gives the canonical 7, not 007. -/
theorem c4_counterexample :
    convertBase (convertBase ("007") ("dec") ("bin")) ("bin") ("dec") = "7" ∧
    ("7" : String) ≠ "007" := by
  refine ⟨by with_unfolding_all rfl, by decide⟩

/-- C4 amended: for every base B among bin, oct and hex, the round trip
through convertBase is the identity on the canonical decimal numeral of
every non-negative integer (no redundant leading zeros, no sign). -/
theorem c4_roundtrip_canonical (n : ℕ) (B : String)
    (hB : B = "bin" ∨ B = "oct" ∨ B = "hex") :
    convertBase (convertBase (natToStringRadix 10 n) ("dec") B) B ("dec") = natToStringRadix 10 n := by
  have hdec10 : jsParseInt 10 (natToStringRadix 10 n) = some (n : ℤ) :=
    natToStringRadix_parse 10 n (by omega) (by omega)
  rcases hB with hB | hB | hB <;> subst hB
  · rw [convertBase_eval _ ("dec") ("bin") 10 2 (n : ℤ) rfl hdec10 rfl, if_neg (by decide),
      intToStringRadix_natCast,
      convertBase_eval _ ("bin") ("dec") 2 10 (n : ℤ) rfl
        (natToStringRadix_parse 2 n (by omega) (by omega)) rfl,
      if_neg (by decide), intToStringRadix_natCast]
  · rw [convertBase_eval _ ("dec") ("oct") 10 8 (n : ℤ) rfl hdec10 rfl, if_neg (by decide),
      intToStringRadix_natCast,
      convertBase_eval _ ("oct") ("dec") 8 10 (n : ℤ) rfl
        (natToStringRadix_parse 8 n (by omega) (by omega)) rfl,
      if_neg (by decide), intToStringRadix_natCast]
  · rw [convertBase_eval _ ("dec") ("hex") 10 16 (n : ℤ) rfl hdec10 rfl, if_pos rfl,
      intToStringRadix_natCast,
      convertBase_eval _ ("hex") ("dec") 16 10 (n : ℤ) rfl
        (natToStringRadix_parse_upper 16 n (by omega) (by omega)) rfl,
      if_neg (by decide), intToStringRadix_natCast]

/-- C4 witness: the round trip through hexadecimal at 2026. -/
theorem c4_roundtrip_witness :
    convertBase (convertBase (natToStringRadix 10 2026) ("dec") ("hex")) ("hex") ("dec") =
      natToStringRadix 10 2026 :=
  c4_roundtrip_canonical 2026 ("hex") (Or.inr (Or.inr rfl))

/-- C5 counterexample: from the startup state the digits 0 then 7 leave
the display at 7, not at the concatenation 07, because a display of 0
is replaced rather than appended to; and in the decimal base the digit
A, invalid for that base, is accepted and replaces the display instead
of being rejected with the state unchanged. -/
theorem c5_counterexample :
    (handleNumberButton (handleNumberButton initState ("0")).1 ("7")).1.currentInput = "7" ∧
    ("7" : String) ≠ "07" ∧
    (handleNumberButton initState ("A")).1.currentInput = "A" ∧ ("A" : String) ≠ "0" := by
  refine ⟨by with_unfolding_all rfl, by decide, by with_unfolding_all rfl, by decide⟩

/-- C5 amended: digit presses are rejected (state unchanged) exactly by
the binary-base check outside 0 and 1 and the octal-base check outside
0-7; every other press is accepted, replacing a display of 0 (or one
marked for reset) and appending otherwise.  Hence a digit run from a
fresh engine leaves the display equal to the concatenation of the
accepted digits with redundant leading zeros collapsed, 0 by default. -/
theorem c5_digit_accumulation (base : String) (ds : List Char) :
    (applyDigits base ds).currentInput =
      canonDigits (ds.filter (fun c => acceptsDigit base c)) := by
  have h := foldl_digits base ds []
  unfold applyDigits baseInit
  rw [show ({ initState with currentBase := base } : CalcState) = digitRunState base [] from rfl, h]
  rfl

/-- C6: for every state and every operator key other than the percent
key, handleOperatorButton behaves exactly as the spec describes
setOperator: it first evaluates the pending operation when an operator
is pending with a captured left operand and no reset mark, then stores
the display into previousInput, stores the new operator, and marks the
screen for reset. -/
theorem c6_setOperator (s : CalcState) (op : String) (hop : op ≠ "%") :
    (handleOperatorButton s op).1 = setOperatorSpec s op := by
  unfold handleOperatorButton setOperatorSpec
  rw [if_neg hop]
  by_cases hc : jsTruthy s.operation = true ∧ s.previousInput ≠ "" ∧ s.resetScreen = false
  · rw [if_pos hc, if_pos ⟨jsTruthy_isSome hc.1, hc.2⟩]
  · by_cases hsp : s.operation.isSome = true ∧ s.previousInput ≠ "" ∧ s.resetScreen = false
    · rw [if_neg hc, if_pos hsp, calculate_noop s (Or.inl (fun h => hc ⟨h, hsp.2⟩))]
    · rw [if_neg hc, if_neg hsp]

/-- C6 witness: pressing plus on the startup state. -/
theorem c6_setOperator_witness :
    (handleOperatorButton initState ("+")).1 = setOperatorSpec initState ("+") :=
  c6_setOperator initState ("+") (by decide)

/-- C7 counterexample: sqrt of the non-positive operand 0 returns the
numeral 0, not the error sentinel, so sqrt does not fail on all
non-positive operands. -/
theorem c7_counterexample :
    scientificCalculation defaultMathModel ("sqrt") ("0") = "0" ∧ ("0" : String) ≠ "错误" := by
  refine ⟨by with_unfolding_all rfl, by decide⟩

/-- C7 amended: log and ln return the error sentinel for every operand
that parses at most 0; sqrt returns it exactly for negative operands
(sqrt of 0 is 0); in particular sqrt of -1 is the sentinel and sqrt of
9 is 3. -/
theorem c7_domain_errors (M : MathModel) (s : String) (v : ℚ) (hv : jsParseFloat s = some v) :
    (v ≤ 0 → scientificCalculation M ("log") s = "错误" ∧ scientificCalculation M ("ln") s = "错误") ∧
    (v < 0 → scientificCalculation M ("sqrt") s = "错误") ∧
    scientificCalculation M ("sqrt") ("-1") = "错误" ∧
    scientificCalculation M ("sqrt") ("9") = "3" := by
  refine ⟨fun h => ⟨?_, ?_⟩, fun h => ?_, ?_, ?_⟩
  · rw [scientificCalculation_branch M ("log") s v hv]
    show (if 0 < v then ratToString (M.log10 v) else "错误") = "错误"
    rw [if_neg (not_lt.2 h)]
  · rw [scientificCalculation_branch M ("ln") s v hv]
    show (if 0 < v then ratToString (M.ln v) else "错误") = "错误"
    rw [if_neg (not_lt.2 h)]
  · rw [scientificCalculation_branch M ("sqrt") s v hv]
    show (if 0 ≤ v then ratToString (ratSqrt v) else "错误") = "错误"
    rw [if_neg (not_le.2 h)]
  · with_unfolding_all rfl
  · with_unfolding_all rfl

/-- C7 witness: the operand -1 satisfies all hypotheses and both error
conclusions. -/
theorem c7_domain_errors_witness :
    ((-1 : ℚ) ≤ 0 → scientificCalculation defaultMathModel ("log") ("-1") = "错误" ∧
      scientificCalculation defaultMathModel ("ln") ("-1") = "错误") ∧
    ((-1 : ℚ) < 0 → scientificCalculation defaultMathModel ("sqrt") ("-1") = "错误") := by
  have h := c7_domain_errors defaultMathModel ("-1") (-1) (by with_unfolding_all rfl)
  exact ⟨h.1, h.2.1⟩

/-- C8: the factorial branch returns the error sentinel for negative or
non-integer operands, the too-large sentinel above the ceiling 100, and
otherwise the decimal rendering of the factorial; in particular 101
answers the too-large sentinel and 5 answers 120. -/
theorem c8_factorial_behavior (M : MathModel) (s : String) (v : ℚ) (hv : jsParseFloat s = some v) :
    ((v < 0 ∨ v.den ≠ 1) → scientificCalculation M ("factorial") s = "错误") ∧
    (¬(v < 0 ∨ v.den ≠ 1) → 100 < v → scientificCalculation M ("factorial") s = "太大") ∧
    (¬(v < 0 ∨ v.den ≠ 1) → ¬(100 < v) →
      scientificCalculation M ("factorial") s = natToStringRadix 10 (Nat.factorial v.num.toNat)) ∧
    scientificCalculation M ("factorial") ("101") = "太大" ∧
    scientificCalculation M ("factorial") ("5") = "120" := by
  have hb : scientificCalculation M ("factorial") s =
      (if v < 0 ∨ v.den ≠ 1 then "错误"
       else if 100 < v then "太大"
       else ratToString ((jsFactorialLoop v.num.toNat : ℕ) : ℚ)) :=
    scientificCalculation_branch M ("factorial") s v hv
  refine ⟨fun h => ?_, fun h1 h2 => ?_, fun h1 h2 => ?_, ?_, ?_⟩
  · rw [hb, if_pos h]
  · rw [hb, if_neg h1, if_pos h2]
  · rw [hb, if_neg h1, if_neg h2, jsFactorialLoop_eq, ratToString_natCast]
  · with_unfolding_all rfl
  · with_unfolding_all rfl

/-- C8 witness: the operand 5 reaches the computing branch and yields
the decimal rendering of 5 factorial. -/
theorem c8_factorial_behavior_witness :
    jsParseFloat ("5") = some 5 ∧ ¬((5 : ℚ) < 0 ∨ (5 : ℚ).den ≠ 1) ∧ ¬(100 < (5 : ℚ)) ∧
    scientificCalculation defaultMathModel ("factorial") ("5") =
      natToStringRadix 10 (Nat.factorial (5 : ℚ).num.toNat) := by
  refine ⟨by with_unfolding_all rfl, by with_unfolding_all decide, by with_unfolding_all decide, ?_⟩
  exact (c8_factorial_behavior defaultMathModel ("5") 5 (by with_unfolding_all rfl)).2.2.1
    (by with_unfolding_all decide) (by with_unfolding_all decide)

/-- C9: calculate() is a no-op, notification included, on every state
whose operation is null or whose previousInput is empty; and it is
idempotent on every state, since a successful evaluation clears the
operation field. -/
theorem c9_evaluate_noop_idempotent (s : CalcState)
    (h : s.operation = none ∨ s.previousInput = "") :
    calculate s = (s, none) ∧ ∀ t : CalcState, (calculate (calculate t).1).1 = (calculate t).1 := by
  constructor
  · refine calculate_noop s ?_
    rcases h with h | h
    · exact Or.inl (by simp [h, jsTruthy])
    · exact Or.inr h
  · exact calculate_idem

/-- C9 witness: the startup state has no pending operation. -/
theorem c9_evaluate_noop_witness :
    calculate initState = (initState, none) :=
  (c9_evaluate_noop_idempotent initState (Or.inl rfl)).1

/-- C10: clear resets exactly currentInput, previousInput and
operation and issues the cleared notification; resetScreen, the active
base and the history survive a clear. -/
theorem c10_clear_frame (s : CalcState) :
    clear s = ({ s with currentInput := "0", previousInput := "", operation := none }, some ("已清除")) ∧
    (clear s).1.resetScreen = s.resetScreen ∧ (clear s).1.currentBase = s.currentBase ∧
    (clear s).1.history = s.history :=
  ⟨rfl, rfl, rfl, rfl⟩

end Jisuanji
